import Mathlib

/-!
Shallow embedding of `src/TC2/computeSales.py`.

The program loads two JSON documents (a price catalogue and a sales
record), builds a `dict` mapping product titles to prices
(`build_price_dict`), folds the sale records into a running total and an
error counter (`process_sales`), and writes a report.

Modelling conventions:
* JSON value trees are the inductive `JValue` (object / array / string /
  number / boolean / null).  Python `float` values are modelled as `ℚ`;
  the special floating-point values (inf/nan) and underscore digit
  separators accepted by Python's `float(str)` are outside the model.
* Python exceptions that the code can actually raise and does not catch
  are made explicit with `Except PyErr`.  `float` of a list/dict/None
  raises `TypeError`; `float` of a non-numeric string raises
  `ValueError`; attribute access `.get` on a non-dict raises
  `AttributeError`; using an unhashable value (list/dict) as a dict key
  raises `TypeError`.
* Python `dict` objects with hashable JSON keys are association lists
  over the canonical key type `PyKey` (Python's `==`/`hash` identify
  `True` with `1` and `False` with `0`, so booleans normalise to their
  numeric value; `None` never reaches a key position in this program
  because both passes skip null/missing fields first).
* I/O (reading files, printing) is abstracted: the loader is a function
  of the outcome of `open`+`json.load`, and printed diagnostics are
  returned as string lists where a claim mentions them.
-/

/-- A parsed JSON value tree, as produced by `json.load`. -/
inductive JValue where
  | jnull
  | jbool (b : Bool)
  | jnum (q : ℚ)
  | jstr (s : String)
  | jarr (elems : List JValue)
  | jobj (fields : List (String × JValue))

/-- The Python exception classes this program can raise and leave uncaught. -/
inductive PyErr where
  | typeError
  | valueError
  | attributeError
deriving DecidableEq

/-- Canonical form of a hashable JSON value used as a Python dict key:
Python's `==` and `hash` identify `True` with `1` and `False` with `0`,
so booleans collapse into numbers; strings stay strings. -/
inductive PyKey where
  | knum (q : ℚ)
  | kstr (s : String)
deriving DecidableEq

/-- Python hashing of a JSON value used as a dict key.  Lists and dicts
are unhashable (`none`); `jnull` is also mapped to `none` because in this
program a null field is always filtered out by the preceding `is None`
check, so it never reaches a key position. -/
def keyNorm : JValue → Option PyKey
  | .jbool b => some (.knum (if b then 1 else 0))
  | .jnum q => some (.knum q)
  | .jstr s => some (.kstr s)
  | _ => none

/-- Field access `d.get(k)` on a parsed JSON object.  `json.load` keeps
the last value when a key is repeated, hence the tail-first search. -/
def objGet : List (String × JValue) → String → Option JValue
  | [], _ => none
  | p :: rest, k =>
    match objGet rest k with
    | some v => some v
    | none => if p.1 == k then some p.2 else none

/-- The Python test `x is None` after a `d.get(k)` call: true when the
key was absent or its value was JSON `null` (both give Python `None`). -/
def isNoneLike : Option JValue → Bool
  | none => true
  | some .jnull => true
  | some _ => false

/-- Numeric value of a digit string (helper for `pyParseFloat`). -/
def digitsVal (cs : List Char) : Nat :=
  cs.foldl (fun n c => 10 * n + (c.toNat - 48)) 0

def allDigits (cs : List Char) : Bool :=
  cs.all (fun c => c.isDigit)

/-- Mantissa of a Python float literal: `digits`, `digits.digits`,
`digits.` or `.digits`. -/
def parseMantissa : List Char → Option ℚ
  | cs =>
    match cs.span Char.isDigit with
    | (ds, []) => if ds.isEmpty then none else some ((digitsVal ds : ℚ))
    | (ds, c :: fs) =>
      if c == '.' && allDigits fs && !(ds.isEmpty && fs.isEmpty) then
        some ((digitsVal ds : ℚ) + (digitsVal fs : ℚ) / ((10 : ℚ) ^ fs.length))
      else none

/-- Strip one optional leading sign; returns (isNegative, rest). -/
def splitSign : List Char → Bool × List Char
  | '-' :: r => (true, r)
  | '+' :: r => (false, r)
  | r => (false, r)

/-- Surrounding whitespace removal performed by Python's `float(str)`. -/
def stripWs (cs : List Char) : List Char :=
  ((cs.dropWhile Char.isWhitespace).reverse.dropWhile Char.isWhitespace).reverse

/-- Python `float(s)` on a string: optional surrounding whitespace,
optional sign, decimal mantissa, optional exponent part.  (`inf`, `nan`
and underscore separators are outside the rational-number model.) -/
def pyParseFloat (s : String) : Option ℚ :=
  let cs := stripWs s.toList
  let (neg, cs2) := splitSign cs
  let (mant, ex) :=
    match cs2.span (fun c => !(c == 'e' || c == 'E')) with
    | (m, []) => (m, (none : Option (List Char)))
    | (m, _ :: e) => (m, some e)
  match parseMantissa mant with
  | none => none
  | some q =>
    let q := if neg then -q else q
    match ex with
    | none => some q
    | some e =>
      let (eneg, ed) := splitSign e
      if ed.isEmpty || !allDigits ed then none
      else some (if eneg then q / (10 : ℚ) ^ digitsVal ed else q * (10 : ℚ) ^ digitsVal ed)

/-- Python `float(v)` on a parsed JSON value: numbers pass through,
booleans coerce to 0/1, strings are parsed (`ValueError` on failure),
everything else (`None`, lists, dicts) raises `TypeError`. -/
def pyFloat : JValue → Except PyErr ℚ
  | .jnum q => .ok q
  | .jbool b => .ok (if b then 1 else 0)
  | .jstr s =>
    match pyParseFloat s with
    | some q => .ok q
    | none => .error .valueError
  | _ => .error .typeError

/-- The `price_dict` built by the program: a Python dict from product
title to price, represented as an association list in insertion order. -/
abbrev PDict := List (PyKey × ℚ)

/-- Python dict lookup `d.get(k)` (after hashing): first matching entry. -/
def dictFind : PDict → PyKey → Option ℚ
  | [], _ => none
  | p :: rest, k => if p.1 = k then some p.2 else dictFind rest k

/-- Python dict update `d[k] = v`: replace the value of an existing key
in place, else append the new pair (insertion order preserved). -/
def dictInsert : PDict → PyKey → ℚ → PDict
  | [], k, v => [(k, v)]
  | p :: rest, k, v => if p.1 = k then (k, v) :: rest else p :: dictInsert rest k v

/-- One iteration of the `for product in price_data:` loop of
`build_price_dict` (lines 55-66): `.get` both fields, skip when either is
`None` (printing), `float(price)` catching only `ValueError` (a
`TypeError` from a list/dict price propagates), then `price_dict[title] =
price` (a list/dict title raises `TypeError` when hashed).  A non-dict
element raises `AttributeError` at `product.get("title")`. -/
def catalogEntry (d : PDict) (product : JValue) : Except PyErr PDict :=
  match product with
  | .jobj fields =>
    let title := objGet fields "title"
    let price := objGet fields "price"
    if isNoneLike title || isNoneLike price then .ok d
    else
      match pyFloat (price.getD .jnull) with
      | .error .valueError => .ok d
      | .error e => .error e
      | .ok q =>
        match keyNorm (title.getD .jnull) with
        | some k => .ok (dictInsert d k q)
        | none => .error .typeError
  | _ => .error .attributeError

/-- The catalogue loop folded over the whole list; an uncaught exception
aborts the remaining iterations. -/
def buildFold : PDict → List JValue → Except PyErr PDict
  | d, [] => .ok d
  | d, p :: rest =>
    match catalogEntry d p with
    | .error e => .error e
    | .ok d2 => buildFold d2 rest

/-- Function `build_price_dict(price_data)` (lines 38-81): a list is folded entry
by entry; a single dict is treated as one entry (same checks, `float`
catching only `ValueError`); any other shape logs a format message and
returns the empty dict. -/
def build_price_dict : JValue → Except PyErr PDict
  | .jarr l => buildFold [] l
  | .jobj fields =>
    let title := objGet fields "title"
    let price := objGet fields "price"
    if isNoneLike title || isNoneLike price then .ok []
    else
      match pyFloat (price.getD .jnull) with
      | .error .valueError => .ok []
      | .error e => .error e
      | .ok q =>
        match keyNorm (title.getD .jnull) with
        | some k => .ok (dictInsert [] k q)
        | none => .error .typeError
  | _ => .ok []

/-- Python `price_dict.get(product)` (line 127): hashing the key happens
first (already done by the caller via `keyNorm`); the lookup itself never
mutates the dict, which is returned unchanged alongside the result. -/
def dictGet (d : PDict) (k : PyKey) : Option ℚ × PDict :=
  (dictFind d k, d)

/-- One iteration of the `for sale in sales_data:` loop of
`process_sales` (lines 106-133), threading the dict state explicitly:
non-dict records, missing/null fields, a `float(quantity)` failure
(`ValueError` and `TypeError` are both caught, line 122) and an unknown
product each increment `error_count`; an unhashable (list/dict) `Product`
raises `TypeError` at `price_dict.get(product)`; a matched record adds
`price * quantity` to the total. -/
def saleStepSt (st : PDict × ℚ × ℕ) (sale : JValue) : Except PyErr (PDict × ℚ × ℕ) :=
  let (d, total, errs) := st
  match sale with
  | .jobj fields =>
    let product := objGet fields "Product"
    let quantity := objGet fields "Quantity"
    if isNoneLike product || isNoneLike quantity then .ok (d, total, errs + 1)
    else
      match pyFloat (quantity.getD .jnull) with
      | .error _ => .ok (d, total, errs + 1)
      | .ok q =>
        match keyNorm (product.getD .jnull) with
        | none => .error .typeError
        | some k =>
          let (price, d2) := dictGet d k
          match price with
          | none => .ok (d2, total, errs + 1)
          | some p => .ok (d2, total + p * q, errs)
  | _ => .ok (d, total, errs + 1)

/-- The sales loop folded over the record list; an uncaught exception
aborts the remaining iterations. -/
def salesFoldSt : PDict × ℚ × ℕ → List JValue → Except PyErr (PDict × ℚ × ℕ)
  | st, [] => .ok st
  | st, s :: rest =>
    match saleStepSt st s with
    | .error e => .error e
    | .ok st2 => salesFoldSt st2 rest

/-- Variant of `process_sales` with the dict state made visible in the result (the
source never assigns into `price_dict`; the only dict operation is
`.get`).  A non-list sales tree logs a format message and returns
`(0.0, 0)` (lines 102-104). -/
def processSalesWithDict (d : PDict) (sales_data : JValue) : Except PyErr (PDict × ℚ × ℕ) :=
  match sales_data with
  | .jarr l => salesFoldSt (d, 0, 0) l
  | _ => .ok (d, 0, 0)

/-- Function `process_sales(price_dict, sales_data)` (lines 84-135): the pair
`(total_cost, error_count)` it returns, with uncaught exceptions explicit. -/
def process_sales (d : PDict) (sales_data : JValue) : Except PyErr (ℚ × ℕ) :=
  (processSalesWithDict d sales_data).map (fun st => st.2)

/-- Outcome of the abstracted I/O inside `load_json_file`'s `try` block:
`open`+read can fail with `IOError`; `json.load` can fail with
`JSONDecodeError`; reading bytes that are not valid UTF-8 text makes the
decoder raise `UnicodeDecodeError`, which subclasses `ValueError` and is
neither an `IOError` nor a `JSONDecodeError`; or a value tree is
produced. -/
inductive LoadOutcome where
  | readError (cause : String)
  | decodeError (cause : String)
  | unicodeError (cause : String)
  | parsed (v : JValue)

/-- Function `load_json_file(filename)` (lines 20-35): returns the parsed
data, or prints `Error al leer <filename>: <cause>` and returns `None`
when the `except (IOError, json.JSONDecodeError)` clause fires.  A
`UnicodeDecodeError` from non-UTF-8 file content matches neither handler
class, so it propagates uncaught to the caller (as a `ValueError`).  The
second component collects the printed diagnostics. -/
def load_json_file (filename : String) :
    LoadOutcome → Except PyErr (Option JValue) × List String
  | .readError cause => (.ok none, ["Error al leer " ++ filename ++ ": " ++ cause])
  | .decodeError cause => (.ok none, ["Error al leer " ++ filename ++ ": " ++ cause])
  | .unicodeError _ => (.error .valueError, [])
  | .parsed v => (.ok (some v), [])

/-- How one run of `main` (lines 138-187) ends. -/
inductive MainOutcome where
  /-- usage message printed, `sys.exit(1)`, report file untouched -/
  | usageExit
  /-- catalogue failed to load, `sys.exit(1)`, report file untouched -/
  | catalogLoadExit
  /-- sales record failed to load, `sys.exit(1)`, report file untouched -/
  | salesLoadExit
  /-- an uncaught exception terminated the run before the report -/
  | crashed (e : PyErr)
  /-- normal completion: report printed and written -/
  | finished (total : ℚ) (errors : ℕ)

/-- Process exit status of a `main` outcome (an uncaught exception also
terminates the interpreter with status 1). -/
def exitCode : MainOutcome → ℕ
  | .finished _ _ => 0
  | _ => 1

/-- Whether the run reaches the code that writes `SalesResults.txt`. -/
def writesReport : MainOutcome → Bool
  | .finished _ _ => true
  | _ => false

/-- Function `main()` (lines 138-187) over the full `sys.argv` list and an
abstract file system `fs` giving each path's load outcome: the
`len(sys.argv) != 3` guard comes first (line 146), then the two loads,
then the build/process pipeline. -/
def pymain (argv : List String) (fs : String → LoadOutcome) : MainOutcome :=
  if argv.length ≠ 3 then .usageExit
  else
    let price_file := argv.getD 1 ""
    let sales_file := argv.getD 2 ""
    match (load_json_file price_file (fs price_file)).1 with
    | .error e => .crashed e
    | .ok none => .catalogLoadExit
    | .ok (some price_data) =>
      match (load_json_file sales_file (fs sales_file)).1 with
      | .error e => .crashed e
      | .ok none => .salesLoadExit
      | .ok (some sales_data) =>
        match build_price_dict price_data with
        | .error e => .crashed e
        | .ok d =>
          match process_sales d sales_data with
          | .error e => .crashed e
          | .ok (t, er) => .finished t er

/-! ### Claim-side descriptions

The following definitions restate, in the spec's vocabulary, which sale
records and catalogue entries count as valid; the claim theorems relate
them to the source functions above. -/

/-- A sale record the spec calls valid for a given catalogue mapping:
mapping-shaped, `Product` and `Quantity` present (and not null),
`Quantity` coercible to a number, and `Product` a key of the mapping. -/
def validSale (d : PDict) (sale : JValue) : Bool :=
  match sale with
  | .jobj fields =>
    let product := objGet fields "Product"
    let quantity := objGet fields "Quantity"
    !isNoneLike product && !isNoneLike quantity
      && (pyFloat (quantity.getD .jnull)).toOption.isSome
      && (match keyNorm (product.getD .jnull) with
          | some k => (dictFind d k).isSome
          | none => false)
  | _ => false

/-- The contribution of one sale record to the total the spec describes:
`price(Product) * Quantity` for a valid record, `0` otherwise. -/
def saleValue (d : PDict) (sale : JValue) : ℚ :=
  match sale with
  | .jobj fields =>
    let product := objGet fields "Product"
    let quantity := objGet fields "Quantity"
    if isNoneLike product || isNoneLike quantity then 0
    else
      match pyFloat (quantity.getD .jnull), keyNorm (product.getD .jnull) with
      | .ok q, some k =>
        match dictFind d k with
        | some price => price * q
        | none => 0
      | _, _ => 0
  | _ => 0

/-- The sale records on which `process_sales` raises instead of counting
an error: mapping-shaped, both fields present, quantity coercible, but
`Product` an unhashable (list/dict) value, so that
`price_dict.get(product)` raises `TypeError`. -/
def saleCrash (sale : JValue) : Bool :=
  match sale with
  | .jobj fields =>
    let product := objGet fields "Product"
    let quantity := objGet fields "Quantity"
    !isNoneLike product && !isNoneLike quantity
      && (pyFloat (quantity.getD .jnull)).toOption.isSome
      && (keyNorm (product.getD .jnull)).isNone
  | _ => false

/-- The coerced `Quantity` of a sale record, when the record carries one. -/
def saleQty (sale : JValue) : Option ℚ :=
  match sale with
  | .jobj fields =>
    let quantity := objGet fields "Quantity"
    if isNoneLike quantity then none
    else (pyFloat (quantity.getD .jnull)).toOption
  | _ => none

/-- The record list of a sales tree (empty when not a sequence). -/
def salesElems : JValue → List JValue
  | .jarr l => l
  | _ => []

/-- The price a single catalogue entry would store under the key `k`:
`some` of its coerced price when the entry is valid (mapping-shaped, both
fields present and non-null, price coercible, title hashable) and its
title hashes to `k`; `none` otherwise. -/
def entryValue (product : JValue) (k : PyKey) : Option ℚ :=
  match product with
  | .jobj fields =>
    let title := objGet fields "title"
    let price := objGet fields "price"
    if isNoneLike title || isNoneLike price then none
    else
      match pyFloat (price.getD .jnull) with
      | .error _ => none
      | .ok q =>
        match keyNorm (title.getD .jnull) with
        | some kt => if kt = k then some q else none
        | none => none
  | _ => none

/-- The price of the last valid catalogue entry for the key `k` in a
catalogue sequence (later entries take precedence). -/
def lastValidPrice : List JValue → PyKey → Option ℚ
  | [], _ => none
  | p :: rest, k => lastValidPrice rest k <|> entryValue p k

/-! ### Dictionary lemmas -/

theorem dictFind_dictInsert (d : PDict) (k k' : PyKey) (v : ℚ) :
    dictFind (dictInsert d k v) k' = if k' = k then some v else dictFind d k' := by
  induction d with
  | nil =>
    by_cases h : k' = k
    · simp [dictInsert, dictFind, h]
    · simp [dictInsert, dictFind, h, Ne.symm h]
  | cons p rest ih =>
    by_cases hpk : p.1 = k
    · by_cases h : k' = k
      · simp [dictInsert, dictFind, hpk, h]
      · simp [dictInsert, dictFind, hpk, h, Ne.symm h]
    · by_cases h : k' = k
      · have hp : p.1 ≠ k' := by rw [h]; exact hpk
        subst h
        simp [dictInsert, dictFind, hpk, hp, ih]
      · by_cases hpk2 : p.1 = k'
        · simp [dictInsert, dictFind, hpk, hpk2, h]
        · simp [dictInsert, dictFind, hpk, hpk2, h, ih]

/-- One catalogue-loop iteration, seen through `dictFind`: when it does
not raise, the new dict answers `k` with the entry's own valid price for
`k` when it has one, and with the old answer otherwise. -/
theorem catalogEntry_ok_find {d d2 : PDict} {p : JValue}
    (h : catalogEntry d p = .ok d2) (k : PyKey) :
    dictFind d2 k = (entryValue p k <|> dictFind d k) := by
  cases p with
  | jobj fields =>
    by_cases h1 : (isNoneLike (objGet fields "title") || isNoneLike (objGet fields "price")) = true
    · simp only [catalogEntry, h1, if_true] at h
      cases h
      simp [entryValue, h1]
    · simp only [catalogEntry, h1, if_false] at h
      simp only [entryValue, h1, if_false]
      cases hf : pyFloat ((objGet fields "price").getD .jnull) with
      | error e =>
        cases e with
        | typeError => simp [hf] at h
        | attributeError => simp [hf] at h
        | valueError =>
          simp only [hf] at h
          cases h
          simp [hf]
      | ok q =>
        simp only [hf] at h ⊢
        cases hk : keyNorm ((objGet fields "title").getD .jnull) with
        | none => simp [hk] at h
        | some kt =>
          simp only [hk] at h ⊢
          cases h
          by_cases h2 : kt = k
          · subst h2
            simp [dictFind_dictInsert]
          · have h2s : ¬k = kt := fun he => h2 he.symm
            simp [dictFind_dictInsert, h2, h2s]
  | jnull => simp [catalogEntry] at h
  | jbool b => simp [catalogEntry] at h
  | jnum q => simp [catalogEntry] at h
  | jstr s => simp [catalogEntry] at h
  | jarr l => simp [catalogEntry] at h

/-- The whole catalogue fold, seen through `dictFind`: when it does not
raise, the final dict answers `k` with the last valid price for `k` in
the entry list, falling back to the initial dict. -/
theorem buildFold_ok_find {es : List JValue} {d d' : PDict}
    (h : buildFold d es = .ok d') (k : PyKey) :
    dictFind d' k = (lastValidPrice es k <|> dictFind d k) := by
  induction es generalizing d with
  | nil =>
    simp only [buildFold] at h
    cases h
    simp [lastValidPrice]
  | cons p rest ih =>
    simp only [buildFold] at h
    cases hc : catalogEntry d p with
    | error e => simp [hc] at h
    | ok d2 =>
      simp only [hc] at h
      rw [lastValidPrice, ih h, catalogEntry_ok_find hc k]
      cases lastValidPrice rest k <;> cases entryValue p k <;> simp

/-- C6: for every catalogue sequence in which the same title appears in two
or more valid entries, the mapping produced by the catalogue builder
associates that title with the price of the last such entry in sequence
order; earlier occurrences are silently overwritten.  Stated in full
generality: whenever `build_price_dict` returns normally on a sequence,
looking up any key answers with the price of the last valid entry whose
title hashes to that key. -/
theorem C6_duplicate_title_last_wins {es : List JValue} {d : PDict} (k : PyKey)
    (h : build_price_dict (.jarr es) = .ok d) :
    dictFind d k = lastValidPrice es k := by
  have hb : buildFold [] es = .ok d := h
  have h2 := buildFold_ok_find hb k
  cases hlv : lastValidPrice es k <;> simp_all [dictFind]

theorem C6_witness :
    dictFind [(PyKey.kstr "A", 2)] (PyKey.kstr "A") =
      lastValidPrice
        [JValue.jobj [("title", JValue.jstr "A"), ("price", JValue.jnum 1)],
         JValue.jobj [("title", JValue.jstr "A"), ("price", JValue.jnum 2)]]
        (PyKey.kstr "A") :=
  C6_duplicate_title_last_wins (PyKey.kstr "A") rfl

/-! ### Sales-loop lemmas -/

/-- A crash-free sales-loop iteration adds the record's value to the
total and counts one error exactly when the record is invalid. -/
theorem saleStepSt_eval (d : PDict) (t : ℚ) (e : ℕ) {s : JValue} (hs : saleCrash s = false) :
    saleStepSt (d, t, e) s =
      .ok (d, t + saleValue d s, e + (if validSale d s then 0 else 1)) := by
  cases s with
  | jobj fields =>
    by_cases hP : isNoneLike (objGet fields "Product") = true
    · simp [saleStepSt, saleValue, validSale, hP]
    · by_cases hQ : isNoneLike (objGet fields "Quantity") = true
      · simp [saleStepSt, saleValue, validSale, hP, hQ]
      · cases hf : pyFloat ((objGet fields "Quantity").getD .jnull) with
        | error err => simp [saleStepSt, saleValue, validSale, Except.toOption, hP, hQ, hf]
        | ok q =>
          cases hk : keyNorm ((objGet fields "Product").getD .jnull) with
          | none =>
            exfalso
            simp [saleCrash, Except.toOption, hP, hQ, hf, hk] at hs
          | some k =>
            cases hd : dictFind d k with
            | none =>
              simp [saleStepSt, saleValue, validSale, dictGet, Except.toOption, hP, hQ, hf, hk, hd]
            | some price =>
              simp [saleStepSt, saleValue, validSale, dictGet, Except.toOption, hP, hQ, hf, hk, hd]
  | jnull => simp [saleStepSt, saleValue, validSale]
  | jbool b => simp [saleStepSt, saleValue, validSale]
  | jnum q => simp [saleStepSt, saleValue, validSale]
  | jstr s2 => simp [saleStepSt, saleValue, validSale]
  | jarr l => simp [saleStepSt, saleValue, validSale]

/-- On a record with an unhashable `Product`, the sales-loop iteration
raises `TypeError` (from `price_dict.get(product)`). -/
theorem saleStepSt_raises (d : PDict) (t : ℚ) (e : ℕ) {s : JValue} (hs : saleCrash s = true) :
    saleStepSt (d, t, e) s = .error .typeError := by
  cases s with
  | jobj fields =>
    simp only [saleCrash, Bool.and_eq_true] at hs
    obtain ⟨⟨⟨hP, hQ⟩, hsome⟩, hnone⟩ := hs
    cases hf : pyFloat ((objGet fields "Quantity").getD .jnull) with
    | error err => rw [hf] at hsome; simp [Except.toOption] at hsome
    | ok q =>
      simp only [Bool.not_eq_true'] at hP hQ
      simp [saleStepSt, hP, hQ, hf, Option.isNone_iff_eq_none.mp hnone]
  | jnull => simp [saleCrash] at hs
  | jbool b => simp [saleCrash] at hs
  | jnum q => simp [saleCrash] at hs
  | jstr s2 => simp [saleCrash] at hs
  | jarr l => simp [saleCrash] at hs

/-- A sales-loop iteration that returns leaves the dict untouched. -/
theorem saleStepSt_dict {st st' : PDict × ℚ × ℕ} {s : JValue}
    (h : saleStepSt st s = .ok st') : st'.1 = st.1 := by
  obtain ⟨d, t, e⟩ := st
  by_cases hc : saleCrash s = true
  · rw [saleStepSt_raises d t e hc] at h
    exact Except.noConfusion h
  · have hc2 : saleCrash s = false := by simpa using hc
    rw [saleStepSt_eval d t e hc2] at h
    injection h with h2
    rw [← h2]

/-- A crash-free sales fold returns the accumulated total and error
count in closed form. -/
theorem salesFoldSt_eval (d : PDict) (l : List JValue) (t : ℚ) (e : ℕ)
    (h : ∀ s ∈ l, saleCrash s = false) :
    salesFoldSt (d, t, e) l =
      .ok (d, t + (l.map (saleValue d)).sum, e + l.countP (fun s => !validSale d s)) := by
  induction l generalizing t e with
  | nil => simp [salesFoldSt]
  | cons s rest ih =>
    have hs := h s (List.mem_cons_self s rest)
    have hrest : ∀ x ∈ rest, saleCrash x = false :=
      fun x hx => h x (List.mem_cons_of_mem s hx)
    simp only [salesFoldSt, saleStepSt_eval d t e hs]
    rw [ih _ _ hrest]
    cases hvs : validSale d s <;>
      simp [hvs, List.countP_cons, add_assoc, add_comm, add_left_comm]

/-- If the sales fold returns, no processed record was a crashing one. -/
theorem salesFoldSt_ok_no_crash {l : List JValue} {st st' : PDict × ℚ × ℕ}
    (h : salesFoldSt st l = .ok st') : ∀ s ∈ l, saleCrash s = false := by
  induction l generalizing st with
  | nil => intro s hs; cases hs
  | cons s rest ih =>
    intro x hx
    simp only [salesFoldSt] at h
    cases hstep : saleStepSt st s with
    | error err => simp [hstep] at h
    | ok st2 =>
      simp only [hstep] at h
      rcases List.mem_cons.mp hx with hx1 | hx2
      · subst hx1
        by_cases hc : saleCrash x = true
        · obtain ⟨d, t, e⟩ := st
          rw [saleStepSt_raises d t e hc] at hstep
          exact Except.noConfusion hstep
        · simpa using hc
      · exact ih h x hx2

/-- A sales fold that returns leaves the dict untouched. -/
theorem salesFoldSt_dict {l : List JValue} {st st' : PDict × ℚ × ℕ}
    (h : salesFoldSt st l = .ok st') : st'.1 = st.1 := by
  induction l generalizing st with
  | nil =>
    simp only [salesFoldSt] at h
    injection h with h2
    rw [h2]
  | cons s rest ih =>
    simp only [salesFoldSt] at h
    cases hstep : saleStepSt st s with
    | error err => simp [hstep] at h
    | ok st2 =>
      simp only [hstep] at h
      exact (ih h).trans (saleStepSt_dict hstep)

/-! ### Claim-side helper lemmas -/

/-- An invalid record contributes zero to the total. -/
theorem saleValue_eq_zero {d : PDict} {s : JValue} (h : validSale d s = false) :
    saleValue d s = 0 := by
  cases s with
  | jobj fields =>
    by_cases hP : isNoneLike (objGet fields "Product") = true
    · simp [saleValue, hP]
    · by_cases hQ : isNoneLike (objGet fields "Quantity") = true
      · simp [saleValue, hP, hQ]
      · cases hf : pyFloat ((objGet fields "Quantity").getD .jnull) with
        | error err => simp [saleValue, hP, hQ, hf]
        | ok q =>
          cases hk : keyNorm ((objGet fields "Product").getD .jnull) with
          | none => simp [saleValue, hP, hQ, hf, hk]
          | some k =>
            cases hd : dictFind d k with
            | none => simp [saleValue, hP, hQ, hf, hk, hd]
            | some price =>
              exfalso
              simp [validSale, Except.toOption, hP, hQ, hf, hk, hd] at h
  | jnull => simp [saleValue]
  | jbool b => simp [saleValue]
  | jnum q => simp [saleValue]
  | jstr s2 => simp [saleValue]
  | jarr l => simp [saleValue]

/-- Summing record values over the whole list equals summing over just
the valid records, since invalid ones contribute zero. -/
theorem sum_map_filter_validSale (d : PDict) (l : List JValue) :
    ((l.filter (fun s => validSale d s)).map (saleValue d)).sum =
      (l.map (saleValue d)).sum := by
  induction l with
  | nil => simp
  | cons s rest ih =>
    cases hv : validSale d s with
    | true => simp [List.filter_cons, hv, ih]
    | false => simp [List.filter_cons, hv, ih, saleValue_eq_zero hv]

/-- A valid record is never a crashing one (its `Product` hashes). -/
theorem validSale_no_crash {d : PDict} {s : JValue} (h : validSale d s = true) :
    saleCrash s = false := by
  cases s with
  | jobj fields =>
    simp only [validSale, Bool.and_eq_true] at h
    obtain ⟨⟨⟨hP, hQ⟩, hsome⟩, hk⟩ := h
    cases hkn : keyNorm ((objGet fields "Product").getD .jnull) with
    | none => rw [hkn] at hk; simp at hk
    | some k => simp [saleCrash, hP, hQ, hsome, hkn]
  | jnull => simp [saleCrash]
  | jbool b => simp [saleCrash]
  | jnum q => simp [saleCrash]
  | jstr s2 => simp [saleCrash]
  | jarr l => simp [saleCrash]

/-- C1: for every catalogue mapping and every sales sequence in which no
record reaches the dict lookup with an unhashable `Product` (such a
record makes the code raise instead of returning), `process_sales`
returns a total equal to the sum, over exactly the valid records
(mapping-shaped, both fields present, quantity coercible, product a key
of the mapping), of `price(Product) * Quantity`; every other record
contributes zero to the total and increments `error_count` by one. -/
theorem C1_total_cost (d : PDict) (l : List JValue)
    (h : ∀ s ∈ l, saleCrash s = false) :
    process_sales d (.jarr l) =
      .ok (((l.filter (fun s => validSale d s)).map (saleValue d)).sum,
           l.countP (fun s => !validSale d s)) := by
  simp only [process_sales, processSalesWithDict, salesFoldSt_eval d l 0 0 h, Except.map]
  simp [sum_map_filter_validSale]

theorem C1_witness :
    process_sales [(PyKey.kstr "Widget", 10)]
      (.jarr [JValue.jobj [("Product", .jstr "Widget"), ("Quantity", .jnum 3)],
              JValue.jobj [("Product", .jstr "Gadget"), ("Quantity", .jnum 2)]]) =
      .ok ((([JValue.jobj [("Product", .jstr "Widget"), ("Quantity", .jnum 3)],
              JValue.jobj [("Product", .jstr "Gadget"), ("Quantity", .jnum 2)]].filter
                (fun s => validSale [(PyKey.kstr "Widget", 10)] s)).map
                  (saleValue [(PyKey.kstr "Widget", 10)])).sum,
           [JValue.jobj [("Product", .jstr "Widget"), ("Quantity", .jnum 3)],
            JValue.jobj [("Product", .jstr "Gadget"), ("Quantity", .jnum 2)]].countP
              (fun s => !validSale [(PyKey.kstr "Widget", 10)] s)) :=
  C1_total_cost _ _ (by decide)

/-- C1 counterexample: the claim quantifies over every sales sequence,
but on a record whose `Product` is a list the code raises an uncaught
`TypeError` at `price_dict.get(product)` (line 127) instead of counting
the record as an error, so no `(total_cost, error_count)` is returned at
all. -/
theorem C1_counterexample :
    process_sales [] (.jarr [.jobj [("Product", .jarr []), ("Quantity", .jnum 1)]]) =
      .error .typeError := rfl

/-- C2: for every catalogue input accepted by the builder and every
crash-free sales list, the `error_count` returned by `process_sales`
equals exactly the number of sale records rejected for any reason
(non-mapping shape, missing field, non-coercible quantity, unknown
product): the count ranges over sale records only, so entries the
catalogue builder rejected never contribute to it. -/
theorem C2_error_count (cat : JValue) (d : PDict) (l : List JValue)
    (_hb : build_price_dict cat = .ok d)
    (h : ∀ s ∈ l, saleCrash s = false) :
    ∃ t, process_sales d (.jarr l) = .ok (t, l.countP (fun s => !validSale d s)) := by
  refine ⟨(l.map (saleValue d)).sum, ?_⟩
  simp only [process_sales, processSalesWithDict, salesFoldSt_eval d l 0 0 h, Except.map]
  simp

theorem C2_witness :
    ∃ t, process_sales [(PyKey.kstr "A", 5)]
        (.jarr [JValue.jobj [("Product", .jstr "B"), ("Quantity", .jnum 1)]]) =
      .ok (t, [JValue.jobj [("Product", .jstr "B"), ("Quantity", .jnum 1)]].countP
                (fun s => !validSale [(PyKey.kstr "A", 5)] s)) :=
  C2_error_count
    (.jarr [JValue.jobj [("title", .jstr "X")],
            JValue.jobj [("title", .jstr "A"), ("price", .jnum 5)]])
    _ _ rfl (by decide)

/-- C2 counterexample: a record whose `Product` is a dict is rejected by
the claim's taxonomy (its product is no key of the mapping), yet the code
raises an uncaught `TypeError` instead of incrementing `error_count`. -/
theorem C2_counterexample :
    process_sales [] (.jarr [.jobj [("Product", .jobj []), ("Quantity", .jnum 2)]]) =
      .error .typeError := rfl

/-- C5: for every catalogue mapping, if the sales tree given to
`process_sales` is not a sequence, the processor returns exactly
`(0.0, 0)`: the top-level format mismatch is reported but contributes no
counted error. -/
theorem C5_not_a_list (d : PDict) (v : JValue) (h : ∀ l, v ≠ .jarr l) :
    process_sales d v = .ok (0, 0) := by
  cases v with
  | jarr l => exact absurd rfl (h l)
  | jnull => rfl
  | jbool b => rfl
  | jnum q => rfl
  | jstr s => rfl
  | jobj fields => rfl

theorem C5_witness : process_sales [] (.jobj []) = .ok (0, 0) :=
  C5_not_a_list [] (.jobj []) (fun _ h => JValue.noConfusion h)

/-- C7: for every catalogue mapping and every sales list containing only
valid records, the result of `process_sales` — in particular the
`total_cost` — is invariant under permutation of the records. -/
theorem C7_order_invariant (d : PDict) {l l' : List JValue} (hp : l.Perm l')
    (hv : ∀ s ∈ l, validSale d s = true) :
    process_sales d (.jarr l) = process_sales d (.jarr l') := by
  have hv' : ∀ s ∈ l', validSale d s = true := fun s hs => hv s (hp.mem_iff.mpr hs)
  have hc : ∀ s ∈ l, saleCrash s = false := fun s hs => validSale_no_crash (hv s hs)
  have hc' : ∀ s ∈ l', saleCrash s = false := fun s hs => validSale_no_crash (hv' s hs)
  simp only [process_sales, processSalesWithDict, salesFoldSt_eval d l 0 0 hc,
    salesFoldSt_eval d l' 0 0 hc', Except.map]
  have hsum : (l.map (saleValue d)).sum = (l'.map (saleValue d)).sum :=
    (hp.map (saleValue d)).sum_eq
  have hcount : l.countP (fun s => !validSale d s) = 0 :=
    List.countP_eq_zero.mpr (fun s hs => by simp [hv s hs])
  have hcount' : l'.countP (fun s => !validSale d s) = 0 :=
    List.countP_eq_zero.mpr (fun s hs => by simp [hv' s hs])
  rw [hsum, hcount, hcount']

theorem C7_witness :
    process_sales [(PyKey.kstr "A", 2), (PyKey.kstr "B", 3)]
        (.jarr [JValue.jobj [("Product", .jstr "A"), ("Quantity", .jnum 1)],
                JValue.jobj [("Product", .jstr "B"), ("Quantity", .jnum 4)]]) =
      process_sales [(PyKey.kstr "A", 2), (PyKey.kstr "B", 3)]
        (.jarr [JValue.jobj [("Product", .jstr "B"), ("Quantity", .jnum 4)],
                JValue.jobj [("Product", .jstr "A"), ("Quantity", .jnum 1)]]) :=
  C7_order_invariant [(PyKey.kstr "A", 2), (PyKey.kstr "B", 3)]
    (List.Perm.swap (JValue.jobj [("Product", .jstr "B"), ("Quantity", .jnum 4)])
      (JValue.jobj [("Product", .jstr "A"), ("Quantity", .jnum 1)]) [])
    (by decide)

/-- A value answered by a dict lookup is the value of some entry. -/
theorem dictFind_mem {d : PDict} {k : PyKey} {v : ℚ} (h : dictFind d k = some v) :
    ∃ p ∈ d, p.2 = v := by
  induction d with
  | nil => simp [dictFind] at h
  | cons p rest ih =>
    by_cases hk : p.1 = k
    · rw [dictFind, if_pos hk] at h
      injection h with h2
      exact ⟨p, List.mem_cons_self p rest, h2⟩
    · rw [dictFind, if_neg hk] at h
      obtain ⟨x, hx, hv⟩ := ih h
      exact ⟨x, List.mem_cons_of_mem p hx, hv⟩

/-- With non-negative prices and non-negative quantities, every record's
contribution is non-negative. -/
theorem saleValue_nonneg {d : PDict} {s : JValue}
    (hd : ∀ p ∈ d, 0 ≤ p.2)
    (hq : ∀ q, saleQty s = some q → 0 ≤ q) :
    0 ≤ saleValue d s := by
  cases s with
  | jobj fields =>
    by_cases hP : isNoneLike (objGet fields "Product") = true
    · simp [saleValue, hP]
    · by_cases hQ : isNoneLike (objGet fields "Quantity") = true
      · simp [saleValue, hP, hQ]
      · cases hf : pyFloat ((objGet fields "Quantity").getD .jnull) with
        | error err => simp [saleValue, hP, hQ, hf]
        | ok q =>
          cases hk : keyNorm ((objGet fields "Product").getD .jnull) with
          | none => simp [saleValue, hP, hQ, hf, hk]
          | some k =>
            cases hdk : dictFind d k with
            | none => simp [saleValue, hP, hQ, hf, hk, hdk]
            | some price =>
              have hq0 : 0 ≤ q := hq q (by simp [saleQty, hQ, hf, Except.toOption])
              obtain ⟨p, hpmem, hpv⟩ := dictFind_mem hdk
              have hp0 : 0 ≤ price := hpv ▸ hd p hpmem
              have hval : saleValue d (.jobj fields) = price * q := by
                simp [saleValue, hP, hQ, hf, hk, hdk]
              rw [hval]
              exact mul_nonneg hp0 hq0
  | jnull => simp [saleValue]
  | jbool b => simp [saleValue]
  | jnum q => simp [saleValue]
  | jstr s2 => simp [saleValue]
  | jarr l => simp [saleValue]

/-- C8 (amended): the claim asserts `total_cost` is non-negative for
every input, which fails for negative prices or quantities; it does
hold whenever every price stored in the
catalogue mapping is non-negative and every record's coerced quantity is
non-negative. -/
theorem C8_nonneg (d : PDict) (v : JValue) (t : ℚ) (e : ℕ)
    (hd : ∀ p ∈ d, 0 ≤ p.2)
    (hq : ∀ s ∈ salesElems v, ∀ q, saleQty s = some q → 0 ≤ q)
    (hr : process_sales d v = .ok (t, e)) : 0 ≤ t := by
  cases v
  case jarr l =>
    have hcf : ∀ s ∈ l, saleCrash s = false := by
      simp only [process_sales, processSalesWithDict] at hr
      cases hfold : salesFoldSt (d, 0, 0) l with
      | error err => rw [hfold] at hr; exact Except.noConfusion hr
      | ok st => exact salesFoldSt_ok_no_crash hfold
    simp only [process_sales, processSalesWithDict, salesFoldSt_eval d l 0 0 hcf,
      Except.map] at hr
    injection hr with h2
    injection h2 with ht he
    have hall : ∀ x ∈ l.map (saleValue d), (0 : ℚ) ≤ x := by
      intro x hx
      obtain ⟨s, hs, hxv⟩ := List.mem_map.mp hx
      rw [← hxv]
      exact saleValue_nonneg hd (hq s (by simpa [salesElems] using hs))
    have hsum := List.sum_nonneg hall
    rw [← ht]
    simpa using hsum
  all_goals
    simp only [process_sales, processSalesWithDict, Except.map] at hr
    injection hr with h2
    injection h2 with ht he
    exact ht ▸ le_refl 0

theorem C8_witness : (0 : ℚ) ≤ 6 :=
  C8_nonneg [(PyKey.kstr "A", 2)]
    (.jarr [JValue.jobj [("Product", .jstr "A"), ("Quantity", .jnum 3)]]) 6 0
    (by norm_num)
    (by
      intro s hs q hqe
      simp [salesElems] at hs
      rw [hs] at hqe
      simp [saleQty, objGet, isNoneLike, pyFloat, Except.toOption] at hqe
      rw [← hqe]
      norm_num)
    (by
      simp +decide [process_sales, processSalesWithDict, salesFoldSt, saleStepSt, dictGet,
        dictFind, objGet, isNoneLike, keyNorm, pyFloat, Except.map]
      norm_num)

/-- C8 counterexample: nothing stops a catalogue price (or a quantity)
from being negative, and then the returned `total_cost` is negative: the
builder accepts price `-5` for `"A"`, and one sale of quantity `2` yields
total `-10 < 0`. -/
theorem C8_counterexample :
    build_price_dict (.jarr [.jobj [("title", .jstr "A"), ("price", .jnum (-5))]]) =
        .ok [(.kstr "A", -5)] ∧
      process_sales [(.kstr "A", -5)]
          (.jarr [.jobj [("Product", .jstr "A"), ("Quantity", .jnum 2)]]) =
        .ok (-10, 0) ∧
      ¬(0 : ℚ) ≤ -10 := by
  refine ⟨rfl, ?_, by norm_num⟩
  simp +decide [process_sales, processSalesWithDict, salesFoldSt, saleStepSt, dictGet,
    dictFind, objGet, isNoneLike, keyNorm, pyFloat, Except.map]
  norm_num

/-- C9: for every invocation whose argument count is not exactly two
positional file paths (`len(sys.argv) != 3`), the program prints the
usage message and exits with status 1, without reaching the code that
writes or modifies the report file. -/
theorem C9_usage_exit (argv : List String) (fs : String → LoadOutcome)
    (h : argv.length ≠ 3) :
    pymain argv fs = .usageExit ∧ exitCode (pymain argv fs) = 1 ∧
      writesReport (pymain argv fs) = false := by
  have hp : pymain argv fs = .usageExit := by simp only [pymain, if_pos h]
  exact ⟨hp, by rw [hp]; rfl, by rw [hp]; rfl⟩

theorem C9_witness :
    pymain ["computeSales.py", "one.json"] (fun _ => .readError "missing") = .usageExit ∧
      exitCode (pymain ["computeSales.py", "one.json"] (fun _ => .readError "missing")) = 1 ∧
      writesReport (pymain ["computeSales.py", "one.json"] (fun _ => .readError "missing"))
        = false :=
  C9_usage_exit ["computeSales.py", "one.json"] (fun _ => .readError "missing") (by decide)

/-- C10: for every catalogue mapping and every sales input, when
`process_sales` returns, the catalogue mapping is unchanged — the dict
threaded through every loop iteration comes back equal to the input
(the only dict operation the loop performs is `.get`). -/
theorem C10_dict_unchanged (d : PDict) (v : JValue) {st : PDict × ℚ × ℕ}
    (h : processSalesWithDict d v = .ok st) : st.1 = d := by
  cases v
  case jarr l => exact salesFoldSt_dict h
  all_goals
    injection h with h2
    rw [← h2]

theorem C10_witness :
    (([(PyKey.kstr "A", 2)], (0 : ℚ), 1) : PDict × ℚ × ℕ).1 = [(PyKey.kstr "A", 2)] :=
  C10_dict_unchanged [(PyKey.kstr "A", 2)]
    (.jarr [JValue.jobj [("Product", .jstr "B"), ("Quantity", .jnum 1)]]) rfl

/-- C4 (code-bug evidence): the claim says the loader, on any failure to
read or parse, prints a message naming the path and cause and returns
the explicit "no value" result, never propagating an exception; but a
file whose bytes are not valid UTF-8 makes `json.load` raise
`UnicodeDecodeError`, a `ValueError` that matches neither class of the
`except (IOError, json.JSONDecodeError)` clause at line 33, so the
loader propagates it uncaught and prints nothing.  The two handled
failure classes, and the success path, do behave as the claim says. -/
theorem C4_loader_raises :
    load_json_file "ventas.json" (.unicodeError "invalid start byte") =
        (.error .valueError, []) ∧
      load_json_file "ventas.json" (.readError "No such file or directory") =
        (.ok none, ["Error al leer ventas.json: No such file or directory"]) ∧
      load_json_file "ventas.json" (.decodeError "Expecting value") =
        (.ok none, ["Error al leer ventas.json: Expecting value"]) ∧
      load_json_file "ventas.json" (.parsed (.jarr [])) =
        (.ok (some (.jarr [])), []) :=
  ⟨rfl, rfl, rfl, rfl⟩

/-- C3 (code-bug evidence): the claim says the catalogue builder never
surfaces an exception, but `build_price_dict` catches only `ValueError`
around `float(price)` (line 63) and calls `.get` on raw elements, so a
non-mapping element raises `AttributeError`, and a sequence- or
mapping-valued price raises `TypeError`, in both the list and the
single-entry branches. -/
theorem C3_builder_raises :
    build_price_dict (.jarr [.jstr "x"]) = .error .attributeError ∧
      build_price_dict (.jarr [.jobj [("title", .jstr "A"), ("price", .jarr [])]]) =
        .error .typeError ∧
      build_price_dict (.jobj [("title", .jstr "A"), ("price", .jobj [])]) =
        .error .typeError :=
  ⟨rfl, rfl, rfl⟩
